import Mathlib

/-!
Verification development for the LCP commitment-context module
(`modules/commitments/src/context.rs`) and the LCP IBC client state
(`modules/ibc-client/src/client_state.rs`).

Bytes are modelled as `List Nat` (each entry a byte value), machine
integers as `Nat` with explicit bounds, and fallible Rust code as
`Except Error`.  A Rust `assert!` that can abort the process is modelled
by a dedicated `panicked` outcome, kept distinct from returned errors.
-/

namespace LCP

/-- Nanoseconds per second, used by duration conversions. -/
def NANOS_PER_SEC : Nat := 1000000000

/-- Modelled from the spec: the time utilities (`lcp_types::Time`) are an
external dependency ("a monotonic-safe timestamp type supporting
nanosecond-precision arithmetic with explicit overflow/underflow
failure").  The maximal representable unix timestamp in nanoseconds,
9999-12-31T23:59:59.999999999Z, as exercised by the module's property
tests via `MAX_UNIX_TIMESTAMP_NANOS`. -/
def MAX_UNIX_TIMESTAMP_NANOS : Nat := 253402300799 * NANOS_PER_SEC + 999999999

/-- Modelled from the spec: `lcp_types::Time`, a unix timestamp with
nanosecond precision.  The representable-range invariant is tracked by
`Time.valid`. -/
structure Time where
  nanos : Nat
  deriving Repr, DecidableEq

/-- A `Time` value is in the representable range of the Rust type. -/
def Time.valid (t : Time) : Prop := t.nanos ≤ MAX_UNIX_TIMESTAMP_NANOS

instance (t : Time) : Decidable t.valid := by
  unfold Time.valid
  exact inferInstance

/-- Rust `core::time::Duration`: 64-bit seconds plus a sub-second
nanosecond part. -/
structure Duration where
  secs : Nat
  subsec_nanos : Nat
  deriving Repr, DecidableEq

/-- A `Duration` value satisfies the representation invariants of the
Rust type (`secs` fits in a `u64`, the nanosecond part is below one
second). -/
def Duration.valid (d : Duration) : Prop :=
  d.secs < 2 ^ 64 ∧ d.subsec_nanos < NANOS_PER_SEC

instance (d : Duration) : Decidable d.valid := by
  unfold Duration.valid
  exact inferInstance

/-- Rust `Duration::as_nanos`: the total number of nanoseconds (a `u128`
in Rust; always representable there since `secs < 2^64`). -/
def Duration.as_nanos (d : Duration) : Nat :=
  d.secs * NANOS_PER_SEC + d.subsec_nanos

/-- The error type of the commitments module, restricted to the variants
the embedded code can produce.  `outOfTrustingPeriod` and
`headerFromFuture` are the temporal-policy violations; `timeOverflow` is
the arithmetic-overflow error of the time utilities;
`invalidCommitmentContextHeader`, `ethabiDecodeError` and
`nanosToDurationError` are decode-time errors. -/
inductive Error where
  | outOfTrustingPeriod (current_timestamp : Time) (trusting_period_end : Time)
  | headerFromFuture (current_timestamp : Time) (header_timestamp : Time)
  | timeOverflow
  | invalidCommitmentContextHeader (msg : String)
  | ethabiDecodeError
  | nanosToDurationError
  deriving Repr, DecidableEq

/-- True exactly on the `outOfTrustingPeriod` variant. -/
def Error.isOutOfTrustingPeriod : Error → Bool
  | .outOfTrustingPeriod _ _ => true
  | _ => false

/-- True exactly on the `headerFromFuture` variant. -/
def Error.isHeaderFromFuture : Error → Bool
  | .headerFromFuture _ _ => true
  | _ => false

/-- Modelled from the spec: checked addition of a duration to a
timestamp, failing explicitly (no wrap, no truncation) when the result
leaves the representable range. -/
def Time.add (t : Time) (d : Duration) : Except Error Time :=
  if t.nanos + d.as_nanos ≤ MAX_UNIX_TIMESTAMP_NANOS then
    .ok ⟨t.nanos + d.as_nanos⟩
  else
    .error .timeOverflow

/-- Modelled from the spec: `lcp_types::nanos_to_duration`, converting a
`u128` nanosecond count into a `Duration`, failing when the seconds part
does not fit in a `u64`. -/
def nanos_to_duration (nanos : Nat) : Except Error Duration :=
  if nanos / NANOS_PER_SEC < 2 ^ 64 then
    .ok ⟨nanos / NANOS_PER_SEC, nanos % NANOS_PER_SEC⟩
  else
    .error .nanosToDurationError

/-- Modelled from the spec: `Time::from_unix_timestamp_nanos`, accepting
exactly the representable range. -/
def Time.from_unix_timestamp_nanos (nanos : Nat) : Except Error Time :=
  if nanos ≤ MAX_UNIX_TIMESTAMP_NANOS then
    .ok ⟨nanos⟩
  else
    .error .timeOverflow

/-! ### Big-endian byte serialization helpers -/

/-- `n` written as `w` big-endian bytes (the embedding of Rust
`to_be_bytes` on a `w`-byte integer; faithful when `n < 256 ^ w`). -/
def natToBeBytes : Nat → Nat → List Nat
  | 0, _ => []
  | w + 1, n => natToBeBytes w (n / 256) ++ [n % 256]

/-- Big-endian interpretation of a byte list (the embedding of Rust
`from_be_bytes`). -/
def beBytesToNat (l : List Nat) : Nat :=
  l.foldl (fun acc b => 256 * acc + b) 0

theorem natToBeBytes_length (w n : Nat) : (natToBeBytes w n).length = w := by
  induction w generalizing n with
  | zero => rfl
  | succ w ih => simp [natToBeBytes, ih]

theorem beBytesToNat_natToBeBytes_aux (w : Nat) :
    ∀ n init : Nat, n < 256 ^ w →
      (natToBeBytes w n).foldl (fun acc b => 256 * acc + b) init =
        init * 256 ^ w + n := by
  induction w with
  | zero =>
    intro n init h
    interval_cases n
    simp [natToBeBytes]
  | succ w ih =>
    intro n init h
    have hdiv : n / 256 < 256 ^ w := by
      apply Nat.div_lt_of_lt_mul
      calc n < 256 ^ (w + 1) := h
        _ = 256 * 256 ^ w := by ring
    simp only [natToBeBytes, List.foldl_append, ih (n / 256) init hdiv, List.foldl]
    have hmod : 256 * (n / 256) + n % 256 = n := Nat.div_add_mod n 256
    calc 256 * (init * 256 ^ w + n / 256) + n % 256
        = init * (256 ^ w * 256) + (256 * (n / 256) + n % 256) := by ring
      _ = init * 256 ^ (w + 1) + n := by rw [hmod, Nat.pow_succ]

theorem beBytesToNat_natToBeBytes (w n : Nat) (h : n < 256 ^ w) :
    beBytesToNat (natToBeBytes w n) = n := by
  unfold beBytesToNat
  rw [beBytesToNat_natToBeBytes_aux w n 0 h]
  ring

/-! ### EthABI primitive reads

The `ethabi` crate's decoder, specialized to the two schemas this module
uses (`tuple(bytes32,bytes)` and `tuple(bytes32,bytes32)`): reading a
32-byte word or a byte slice at an offset fails when the data is too
short. -/

/-- Read `len` bytes of `bz` starting at `off`; error when out of range
(the `ethabi` decoder's `take_bytes`/`peek` behaviour). -/
def readBytes (bz : List Nat) (off len : Nat) : Except Error (List Nat) :=
  if off + len ≤ bz.length then .ok ((bz.drop off).take len) else .error .ethabiDecodeError

/-- Read the 32-byte word of `bz` at `off` as a big-endian number. -/
def readWord (bz : List Nat) (off : Nat) : Except Error Nat :=
  match readBytes bz off 32 with
  | .ok w => .ok (beBytesToNat w)
  | .error e => .error e

/-- Right-pad a byte string with zeros to a multiple of 32 bytes (the
ABI padding applied to `bytes`/`FixedBytes` token payloads). -/
def rightPad32 (b : List Nat) : List Nat :=
  b ++ List.replicate ((32 - b.length % 32) % 32) 0

/-- A 32-byte big-endian ABI word for number `n`. -/
def word32 (n : Nat) : List Nat := natToBeBytes 32 n

/-! ### Commitment context type constants (src/modules/commitments/src/context.rs) -/

def COMMITMENT_CONTEXT_TYPE_EMPTY : Nat := 0
def COMMITMENT_CONTEXT_TYPE_WITHIN_TRUSTING_PERIOD : Nat := 1
def COMMITMENT_CONTEXT_HEADER_SIZE : Nat := 32

/-- `TrustingPeriodContext` from `context.rs`. -/
structure TrustingPeriodContext where
  trusting_period : Duration
  clock_drift : Duration
  untrusted_header_timestamp : Time
  trusted_state_timestamp : Time
  deriving Repr, DecidableEq

/-- All fields of a `TrustingPeriodContext` satisfy the representation
invariants of their Rust types. -/
def TrustingPeriodContext.valid (c : TrustingPeriodContext) : Prop :=
  c.trusting_period.valid ∧ c.clock_drift.valid ∧
    c.untrusted_header_timestamp.valid ∧ c.trusted_state_timestamp.valid

instance (c : TrustingPeriodContext) : Decidable c.valid := by
  unfold TrustingPeriodContext.valid
  exact inferInstance

/-- `CommitmentContext` from `context.rs`. -/
inductive CommitmentContext where
  | Empty
  | TrustingPeriod (ctx : TrustingPeriodContext)
  deriving Repr, DecidableEq

/-- A `CommitmentContext` whose fields are all within representable
range. -/
def CommitmentContext.valid : CommitmentContext → Prop
  | .Empty => True
  | .TrustingPeriod ctx => ctx.valid

instance (c : CommitmentContext) : Decidable c.valid := by
  unfold CommitmentContext.valid
  cases c <;> exact inferInstance

/-- The type discriminant a variant is assigned by `header`. -/
def CommitmentContext.contextType : CommitmentContext → Nat
  | .Empty => COMMITMENT_CONTEXT_TYPE_EMPTY
  | .TrustingPeriod _ => COMMITMENT_CONTEXT_TYPE_WITHIN_TRUSTING_PERIOD

/-- `CommitmentContext::header`: a 32-byte header, MSB first; bytes 0-1
hold the 16-bit type discriminant, bytes 2-31 are reserved (zero). -/
def CommitmentContext.header (c : CommitmentContext) : List Nat :=
  match c with
  | .Empty => natToBeBytes 2 COMMITMENT_CONTEXT_TYPE_EMPTY ++ List.replicate 30 0
  | .TrustingPeriod _ =>
      natToBeBytes 2 COMMITMENT_CONTEXT_TYPE_WITHIN_TRUSTING_PERIOD ++ List.replicate 30 0

/-- `CommitmentContext::parse_context_type_from_header`. -/
def CommitmentContext.parse_context_type_from_header (header_bytes : List Nat) :
    Except Error Nat :=
  if header_bytes.length ≠ COMMITMENT_CONTEXT_HEADER_SIZE then
    .error (.invalidCommitmentContextHeader
      ("invalid commitment context header length: expected=32 actual=" ++
        toString header_bytes.length))
  else
    .ok (beBytesToNat (header_bytes.take 2))

/-! ### EthABI intermediate structs and their codecs -/

/-- `EthABICommitmentContext`: the outer `tuple(bytes32 header, bytes
context_bytes)`. -/
structure EthABICommitmentContext where
  header : List Nat
  context_bytes : List Nat
  deriving Repr, DecidableEq

/-- `EthABICommitmentContext::encode`:
`ethabi::encode([Tuple([FixedBytes(header), Bytes(context_bytes)])])`.
The tuple is dynamic (it contains `bytes`), so the top level is an
offset word (32) followed by the tuple: the padded fixed bytes head, the
offset of the bytes tail (64), the bytes length word and the padded
bytes payload. -/
def EthABICommitmentContext.encode (c : EthABICommitmentContext) : List Nat :=
  word32 32 ++ rightPad32 c.header ++ word32 64 ++
    word32 c.context_bytes.length ++ rightPad32 c.context_bytes

/-- `EthABICommitmentContext::decode`: `ethabi::decode` with schema
`[Tuple([FixedBytes(32), Bytes])]`. -/
def EthABICommitmentContext.decode (bz : List Nat) :
    Except Error EthABICommitmentContext :=
  match readWord bz 0 with
  | .error e => .error e
  | .ok tupleOff =>
    match readBytes bz tupleOff 32 with
    | .error e => .error e
    | .ok header =>
      match readWord bz (tupleOff + 32) with
      | .error e => .error e
      | .ok bytesOff =>
        match readWord bz (tupleOff + bytesOff) with
        | .error e => .error e
        | .ok len =>
          match readBytes bz (tupleOff + bytesOff + 32) len with
          | .error e => .error e
          | .ok context_bytes => .ok ⟨header, context_bytes⟩

/-- `EthABITrustingPeriodContext`: two `bytes32` words, `timestamps`
(bytes 0-15 `untrusted_header_timestamp`, 16-31
`trusted_state_timestamp`) and `params` (bytes 0-15 `trusting_period`,
16-31 `clock_drift`). -/
structure EthABITrustingPeriodContext where
  timestamps : List Nat
  params : List Nat
  deriving Repr, DecidableEq

/-- `EthABITrustingPeriodContext::encode`: the tuple
`(bytes32,bytes32)` is static, so the encoding is just the two padded
words in sequence. -/
def EthABITrustingPeriodContext.encode (c : EthABITrustingPeriodContext) : List Nat :=
  rightPad32 c.timestamps ++ rightPad32 c.params

/-- `EthABITrustingPeriodContext::decode`: `ethabi::decode` with schema
`[Tuple([FixedBytes(32), FixedBytes(32)])]`, a static tuple read in
place. -/
def EthABITrustingPeriodContext.decode (bz : List Nat) :
    Except Error EthABITrustingPeriodContext :=
  match readBytes bz 0 32 with
  | .error e => .error e
  | .ok timestamps =>
    match readBytes bz 32 32 with
    | .error e => .error e
    | .ok params => .ok ⟨timestamps, params⟩

/-- `EthABIEncoder::ethabi_encode` for `TrustingPeriodContext`: pack the
two timestamps into the `timestamps` word and the two durations into
the `params` word, each as big-endian 128-bit nanosecond counts. -/
def TrustingPeriodContext.ethabi_encode (c : TrustingPeriodContext) : List Nat :=
  EthABITrustingPeriodContext.encode
    ⟨natToBeBytes 16 c.untrusted_header_timestamp.nanos ++
        natToBeBytes 16 c.trusted_state_timestamp.nanos,
      natToBeBytes 16 c.trusting_period.as_nanos ++
        natToBeBytes 16 c.clock_drift.as_nanos⟩

/-- `EthABIEncoder::ethabi_decode` for `TrustingPeriodContext`. -/
def TrustingPeriodContext.ethabi_decode (bz : List Nat) :
    Except Error TrustingPeriodContext :=
  match EthABITrustingPeriodContext.decode bz with
  | .error e => .error e
  | .ok c =>
    match nanos_to_duration (beBytesToNat (c.params.take 16)) with
    | .error e => .error e
    | .ok trusting_period =>
      match nanos_to_duration (beBytesToNat ((c.params.drop 16).take 16)) with
      | .error e => .error e
      | .ok clock_drift =>
        match Time.from_unix_timestamp_nanos (beBytesToNat (c.timestamps.take 16)) with
        | .error e => .error e
        | .ok untrusted_header_timestamp =>
          match Time.from_unix_timestamp_nanos
              (beBytesToNat ((c.timestamps.drop 16).take 16)) with
          | .error e => .error e
          | .ok trusted_state_timestamp =>
            .ok ⟨trusting_period, clock_drift,
              untrusted_header_timestamp, trusted_state_timestamp⟩

/-- Outcome of a Rust function returning `Result` that may also abort
via `assert!`: `ok`, a returned `err`, or a process-aborting
`panicked`. -/
inductive PanicOr (α : Type) where
  | ok (a : α)
  | err (e : Error)
  | panicked (msg : String)
  deriving Repr, DecidableEq

/-- `EthABIEncoder::ethabi_encode` for `CommitmentContext`: wrap the
header and the variant body in the outer tuple. -/
def CommitmentContext.ethabi_encode (c : CommitmentContext) : List Nat :=
  match c with
  | .Empty => EthABICommitmentContext.encode ⟨c.header, []⟩
  | .TrustingPeriod ctx => EthABICommitmentContext.encode ⟨c.header, ctx.ethabi_encode⟩

/-- `EthABIEncoder::ethabi_decode` for `CommitmentContext`.  The Rust
code runs `assert!(context_bytes.is_empty())` on the `Empty` arm, which
aborts the process on failure; this is modelled by the `panicked`
outcome. -/
def CommitmentContext.ethabi_decode (bz : List Nat) : PanicOr CommitmentContext :=
  match EthABICommitmentContext.decode bz with
  | .error e => .err e
  | .ok c =>
    match CommitmentContext.parse_context_type_from_header c.header with
    | .error e => .err e
    | .ok t =>
      if t = COMMITMENT_CONTEXT_TYPE_EMPTY then
        if c.context_bytes.isEmpty then
          .ok .Empty
        else
          .panicked "assertion failed: context_bytes.is_empty()"
      else if t = COMMITMENT_CONTEXT_TYPE_WITHIN_TRUSTING_PERIOD then
        match TrustingPeriodContext.ethabi_decode c.context_bytes with
        | .error e => .err e
        | .ok ctx => .ok (.TrustingPeriod ctx)
      else
        .err (.invalidCommitmentContextHeader
          ("unknown commitment context type: " ++ toString t))

/-! ### Temporal trust validation -/

/-- `TrustingPeriodContext::ensure_within_trust_period`: succeed only if
`trusted_state_time + trusting_period` is strictly greater than `now`. -/
def TrustingPeriodContext.ensure_within_trust_period
    (now trusted_state_time : Time) (trusting_period : Duration) :
    Except Error Unit :=
  match trusted_state_time.add trusting_period with
  | .error e => .error e
  | .ok trusting_period_end =>
    if now.nanos < trusting_period_end.nanos then
      .ok ()
    else
      .error (.outOfTrustingPeriod now trusting_period_end)

/-- `TrustingPeriodContext::ensure_header_from_past`: succeed only if
`now + clock_drift` is strictly greater than the untrusted header
timestamp. -/
def TrustingPeriodContext.ensure_header_from_past
    (now untrusted_header_time : Time) (clock_drift : Duration) :
    Except Error Unit :=
  match now.add clock_drift with
  | .error e => .error e
  | .ok current =>
    if untrusted_header_time.nanos < current.nanos then
      .ok ()
    else
      .error (.headerFromFuture now untrusted_header_time)

/-- `TrustingPeriodContext::validate`: the within-trust-period check
runs first, then the header-not-from-future check. -/
def TrustingPeriodContext.validate (c : TrustingPeriodContext)
    (current_timestamp : Time) : Except Error Unit :=
  match TrustingPeriodContext.ensure_within_trust_period current_timestamp
      c.trusted_state_timestamp c.trusting_period with
  | .error e => .error e
  | .ok _ =>
    match TrustingPeriodContext.ensure_header_from_past current_timestamp
        c.untrusted_header_timestamp c.clock_drift with
    | .error e => .error e
    | .ok _ => .ok ()

/-- `CommitmentContext::validate`. -/
def CommitmentContext.validate (c : CommitmentContext) (current_timestamp : Time) :
    Except Error Unit :=
  match c with
  | .Empty => .ok ()
  | .TrustingPeriod ctx => ctx.validate current_timestamp

/-! ### IBC client state (src/modules/ibc-client/src/client_state.rs) -/

/-- Modelled from the spec: `lcp_types::Height` (revision number and
revision height), ordered lexicographically as by the derived `Ord` of
the Rust struct. -/
structure Height where
  revision_number : Nat
  revision_height : Nat
  deriving Repr, DecidableEq

/-- The strict lexicographic order on heights (`<` on the Rust type). -/
def Height.lt (a b : Height) : Prop :=
  a.revision_number < b.revision_number ∨
    (a.revision_number = b.revision_number ∧ a.revision_height < b.revision_height)

instance (a b : Height) : Decidable (Height.lt a b) := by
  unfold Height.lt
  exact inferInstance

/-- The non-strict lexicographic order on heights (`<=` on the Rust
type). -/
def Height.le (a b : Height) : Prop :=
  a.revision_number < b.revision_number ∨
    (a.revision_number = b.revision_number ∧ a.revision_height ≤ b.revision_height)

/-- `ClientState` of the LCP IBC client. -/
structure ClientState where
  latest_height : Height
  mr_enclave : List Nat
  key_expiration : Duration
  deriving Repr, DecidableEq

/-- `ClientState::with_header`: advance `latest_height` to the header's
height when the latter is larger.  The Rust method receives the header
as `&dyn Commitment` and only uses `header.height()`, which is passed
here directly. -/
def ClientState.with_header (s : ClientState) (header_height : Height) : ClientState :=
  if Height.lt s.latest_height header_height then
    { s with latest_height := header_height }
  else
    s

/-! ### Helper lemmas about the byte-level codec -/

theorem readBytes_split (bz pre mid post : List Nat) (off len : Nat)
    (hbz : bz = pre ++ (mid ++ post)) (hoff : pre.length = off)
    (hlen : mid.length = len) :
    readBytes bz off len = .ok mid := by
  subst hbz
  unfold readBytes
  have hcond : off + len ≤ (pre ++ (mid ++ post)).length := by
    simp only [List.length_append]
    omega
  rw [if_pos hcond, List.drop_left' hoff, List.take_left' hlen]

theorem readWord_split (bz pre mid post : List Nat) (off : Nat)
    (hbz : bz = pre ++ (mid ++ post)) (hoff : pre.length = off)
    (hlen : mid.length = 32) :
    readWord bz off = .ok (beBytesToNat mid) := by
  unfold readWord
  rw [readBytes_split bz pre mid post off 32 hbz hoff hlen]

theorem readBytes_ok_length (bz : List Nat) (off len : Nat) (l : List Nat)
    (h : readBytes bz off len = .ok l) : l.length = len := by
  unfold readBytes at h
  split at h
  · cases h
    rename_i hle
    simp only [List.length_take, List.length_drop]
    omega
  · cases h

theorem rightPad32_of_mod (l : List Nat) (h : l.length % 32 = 0) :
    rightPad32 l = l := by
  unfold rightPad32
  rw [h]
  simp

theorem word32_length (n : Nat) : (word32 n).length = 32 :=
  natToBeBytes_length 32 n

theorem beBytesToNat_word32 (n : Nat) (h : n < 256 ^ 32) :
    beBytesToNat (word32 n) = n :=
  beBytesToNat_natToBeBytes 32 n h

theorem nanos_to_duration_as_nanos (d : Duration) (h : d.valid) :
    nanos_to_duration d.as_nanos = .ok d := by
  obtain ⟨hs, hn⟩ := h
  unfold nanos_to_duration Duration.as_nanos
  have hK : 0 < NANOS_PER_SEC := by decide
  have hdiv : (d.secs * NANOS_PER_SEC + d.subsec_nanos) / NANOS_PER_SEC = d.secs := by
    rw [Nat.mul_comm, Nat.mul_add_div hK, Nat.div_eq_of_lt hn, Nat.add_zero]
  have hmod : (d.secs * NANOS_PER_SEC + d.subsec_nanos) % NANOS_PER_SEC = d.subsec_nanos := by
    rw [Nat.mul_comm, Nat.mul_add_mod, Nat.mod_eq_of_lt hn]
  rw [hdiv, hmod, if_pos hs]

theorem from_unix_timestamp_nanos_of_valid (t : Time) (h : t.valid) :
    Time.from_unix_timestamp_nanos t.nanos = .ok t := by
  have hle : t.nanos ≤ MAX_UNIX_TIMESTAMP_NANOS := h
  unfold Time.from_unix_timestamp_nanos
  rw [if_pos hle]

theorem time_nanos_lt_pow16 (t : Time) (h : t.valid) : t.nanos < 256 ^ 16 := by
  have : MAX_UNIX_TIMESTAMP_NANOS < 256 ^ 16 := by decide
  unfold Time.valid at h
  omega

theorem duration_as_nanos_lt_pow16 (d : Duration) (h : d.valid) :
    d.as_nanos < 256 ^ 16 := by
  obtain ⟨hs, hn⟩ := h
  unfold Duration.as_nanos
  have h1 : d.secs * NANOS_PER_SEC + d.subsec_nanos < (d.secs + 1) * NANOS_PER_SEC := by
    have : (d.secs + 1) * NANOS_PER_SEC = d.secs * NANOS_PER_SEC + NANOS_PER_SEC := by ring
    omega
  have h2 : (d.secs + 1) * NANOS_PER_SEC ≤ 2 ^ 64 * NANOS_PER_SEC :=
    Nat.mul_le_mul_right NANOS_PER_SEC hs
  have h3 : 2 ^ 64 * NANOS_PER_SEC < 256 ^ 16 := by decide
  omega

/-- The encoded `timestamps`/`params` words of a valid context split
back into their 16-byte halves. -/
theorem take16_append (a b : List Nat) (ha : a.length = 16) :
    (a ++ b).take 16 = a :=
  List.take_left' ha

theorem drop16_take16_append (a b : List Nat) (ha : a.length = 16) (hb : b.length = 16) :
    ((a ++ b).drop 16).take 16 = b := by
  rw [List.drop_left' ha, ← hb, List.take_length b]

/-- Byte-level round trip of the outer `tuple(bytes32, bytes)`
encoding, for a 32-byte header and a body already padded to a multiple
of 32 bytes (as all bodies produced by this module are). -/
theorem ethabi_commitment_context_decode_encode (H B : List Nat)
    (hH : H.length = 32) (hB32 : B.length % 32 = 0) (hBlt : B.length < 256 ^ 32) :
    EthABICommitmentContext.decode (EthABICommitmentContext.encode ⟨H, B⟩) =
      .ok ⟨H, B⟩ := by
  have hHpad : rightPad32 H = H := rightPad32_of_mod H (by rw [hH])
  have hBpad : rightPad32 B = B := rightPad32_of_mod B hB32
  have hbz : EthABICommitmentContext.encode ⟨H, B⟩ =
      word32 32 ++ H ++ word32 64 ++ word32 B.length ++ B := by
    unfold EthABICommitmentContext.encode
    rw [hHpad, hBpad]
  set bz := EthABICommitmentContext.encode ⟨H, B⟩ with hbzdef
  have h1 : readWord bz 0 = .ok 32 := by
    rw [readWord_split bz [] (word32 32) (H ++ word32 64 ++ word32 B.length ++ B) 0
      (by rw [hbz]; simp) rfl (word32_length 32)]
    rw [beBytesToNat_word32 32 (by norm_num)]
  have h2 : readBytes bz 32 32 = .ok H := by
    exact readBytes_split bz (word32 32) H (word32 64 ++ word32 B.length ++ B) 32 32
      (by rw [hbz]; simp) (word32_length 32) hH
  have h3 : readWord bz 64 = .ok 64 := by
    rw [readWord_split bz (word32 32 ++ H) (word32 64) (word32 B.length ++ B) 64
      (by rw [hbz]; simp) (by simp [word32_length, hH]) (word32_length 64)]
    rw [beBytesToNat_word32 64 (by norm_num)]
  have h4 : readWord bz 96 = .ok B.length := by
    rw [readWord_split bz (word32 32 ++ H ++ word32 64) (word32 B.length) B 96
      (by rw [hbz]; simp) (by simp [word32_length, hH]) (word32_length B.length)]
    rw [beBytesToNat_word32 B.length hBlt]
  have h5 : readBytes bz 128 B.length = .ok B := by
    exact readBytes_split bz (word32 32 ++ H ++ word32 64 ++ word32 B.length) B [] 128
      B.length (by rw [hbz]; simp) (by simp [word32_length, hH]) rfl
  unfold EthABICommitmentContext.decode
  rw [h1]
  simp only []
  rw [h2]
  simp only []
  rw [show (32 : Nat) + 32 = 64 from rfl, h3]
  simp only []
  rw [show (32 : Nat) + 64 = 96 from rfl, h4]
  simp only []
  rw [show (32 : Nat) + 64 + 32 = 128 from rfl, h5]

/-- Byte-level round trip of the inner static
`tuple(bytes32, bytes32)` encoding. -/
theorem ethabi_trusting_period_context_decode_encode (T P : List Nat)
    (hT : T.length = 32) (hP : P.length = 32) :
    EthABITrustingPeriodContext.decode (EthABITrustingPeriodContext.encode ⟨T, P⟩) =
      .ok ⟨T, P⟩ := by
  have hTpad : rightPad32 T = T := rightPad32_of_mod T (by rw [hT])
  have hPpad : rightPad32 P = P := rightPad32_of_mod P (by rw [hP])
  have hbz : EthABITrustingPeriodContext.encode ⟨T, P⟩ = T ++ P := by
    unfold EthABITrustingPeriodContext.encode
    rw [hTpad, hPpad]
  unfold EthABITrustingPeriodContext.decode
  rw [readBytes_split _ [] T P 0 32 (by rw [hbz]; simp) rfl hT]
  simp only []
  rw [readBytes_split _ T P [] 32 32 (by rw [hbz]; simp) hT hP]

/-- Round trip of the `TrustingPeriodContext` body codec for in-range
field values. -/
theorem trusting_period_context_roundtrip (c : TrustingPeriodContext) (h : c.valid) :
    TrustingPeriodContext.ethabi_decode c.ethabi_encode = .ok c := by
  obtain ⟨hp, hd, hu, ht⟩ := h
  have lenU : (natToBeBytes 16 c.untrusted_header_timestamp.nanos).length = 16 :=
    natToBeBytes_length 16 _
  have lenT : (natToBeBytes 16 c.trusted_state_timestamp.nanos).length = 16 :=
    natToBeBytes_length 16 _
  have lenP : (natToBeBytes 16 c.trusting_period.as_nanos).length = 16 :=
    natToBeBytes_length 16 _
  have lenD : (natToBeBytes 16 c.clock_drift.as_nanos).length = 16 :=
    natToBeBytes_length 16 _
  unfold TrustingPeriodContext.ethabi_encode TrustingPeriodContext.ethabi_decode
  rw [ethabi_trusting_period_context_decode_encode _ _
    (by rw [List.length_append, lenU, lenT]) (by rw [List.length_append, lenP, lenD])]
  simp only []
  rw [take16_append _ _ lenP, drop16_take16_append _ _ lenP lenD,
    take16_append _ _ lenU, drop16_take16_append _ _ lenU lenT,
    beBytesToNat_natToBeBytes 16 _ (duration_as_nanos_lt_pow16 _ hp),
    beBytesToNat_natToBeBytes 16 _ (duration_as_nanos_lt_pow16 _ hd),
    beBytesToNat_natToBeBytes 16 _ (time_nanos_lt_pow16 _ hu),
    beBytesToNat_natToBeBytes 16 _ (time_nanos_lt_pow16 _ ht),
    nanos_to_duration_as_nanos _ ⟨hp.1, hp.2⟩,
    nanos_to_duration_as_nanos _ ⟨hd.1, hd.2⟩,
    from_unix_timestamp_nanos_of_valid _ hu,
    from_unix_timestamp_nanos_of_valid _ ht]

/-! ### Characterizations of the two temporal checks -/

theorem ensure_within_trust_period_eq (now t : Time) (p : Duration)
    (hno : t.nanos + p.as_nanos ≤ MAX_UNIX_TIMESTAMP_NANOS) :
    TrustingPeriodContext.ensure_within_trust_period now t p =
      if now.nanos < t.nanos + p.as_nanos then .ok ()
      else .error (.outOfTrustingPeriod now ⟨t.nanos + p.as_nanos⟩) := by
  unfold TrustingPeriodContext.ensure_within_trust_period Time.add
  rw [if_pos hno]

theorem ensure_header_from_past_eq (now h : Time) (d : Duration)
    (hno : now.nanos + d.as_nanos ≤ MAX_UNIX_TIMESTAMP_NANOS) :
    TrustingPeriodContext.ensure_header_from_past now h d =
      if h.nanos < now.nanos + d.as_nanos then .ok ()
      else .error (.headerFromFuture now h) := by
  unfold TrustingPeriodContext.ensure_header_from_past Time.add
  rw [if_pos hno]

theorem ensure_header_from_past_error_not_ootp (now h : Time) (d : Duration)
    (t u : Time) :
    TrustingPeriodContext.ensure_header_from_past now h d ≠
      .error (.outOfTrustingPeriod t u) := by
  unfold TrustingPeriodContext.ensure_header_from_past Time.add
  by_cases h1 : now.nanos + d.as_nanos ≤ MAX_UNIX_TIMESTAMP_NANOS
  · rw [if_pos h1]
    by_cases h2 : h.nanos < now.nanos + d.as_nanos
    · simp [h2]
    · simp [h2]
  · rw [if_neg h1]
    simp

/-! ### Claim theorems -/

set_option maxRecDepth 100000

/-- C1: for every valid `CommitmentContext` value `c` (both the `Empty`
variant and the `TrustingPeriod` variant with in-range timestamps and
durations), decoding the EthABI encoding of `c` yields exactly `c`. -/
theorem commitment_context_roundtrip (c : CommitmentContext) (h : c.valid) :
    CommitmentContext.ethabi_decode c.ethabi_encode = .ok c := by
  cases c with
  | Empty => decide
  | TrustingPeriod ctx =>
    have hctx : ctx.valid := h
    have hB : ctx.ethabi_encode.length = 64 := by
      unfold TrustingPeriodContext.ethabi_encode EthABITrustingPeriodContext.encode
      rw [rightPad32_of_mod _ (by simp [natToBeBytes_length]),
          rightPad32_of_mod _ (by simp [natToBeBytes_length])]
      simp [natToBeBytes_length]
    have hdec : EthABICommitmentContext.decode (EthABICommitmentContext.encode
        ⟨(CommitmentContext.TrustingPeriod ctx).header, ctx.ethabi_encode⟩) =
        .ok ⟨(CommitmentContext.TrustingPeriod ctx).header, ctx.ethabi_encode⟩ :=
      ethabi_commitment_context_decode_encode _ _ (by rfl) (by rw [hB])
        (by rw [hB]; norm_num)
    have hparse : CommitmentContext.parse_context_type_from_header
        ((CommitmentContext.TrustingPeriod ctx).header) = .ok 1 := rfl
    have hround := trusting_period_context_roundtrip ctx hctx
    show CommitmentContext.ethabi_decode (EthABICommitmentContext.encode
      ⟨(CommitmentContext.TrustingPeriod ctx).header, ctx.ethabi_encode⟩) =
      .ok (.TrustingPeriod ctx)
    unfold CommitmentContext.ethabi_decode
    rw [hdec]
    simp [hparse, hround, COMMITMENT_CONTEXT_TYPE_EMPTY,
      COMMITMENT_CONTEXT_TYPE_WITHIN_TRUSTING_PERIOD]

/-- Witness for C1 at a concrete `TrustingPeriod` value. -/
theorem commitment_context_roundtrip_witness :
    CommitmentContext.ethabi_decode
      (CommitmentContext.ethabi_encode
        (.TrustingPeriod ⟨⟨86400, 0⟩, ⟨3600, 0⟩, ⟨1000⟩, ⟨500⟩⟩)) =
      .ok (.TrustingPeriod ⟨⟨86400, 0⟩, ⟨3600, 0⟩, ⟨1000⟩, ⟨500⟩⟩) :=
  commitment_context_roundtrip _ (by decide)

/-- C2: when `trusted_state_timestamp + trusting_period` does not
overflow, `validate(current_timestamp)` fails with
`OutOfTrustingPeriod(current_timestamp, trust_end)` if and only if
`trusted_state_timestamp + trusting_period <= current_timestamp`. -/
theorem validate_out_of_trusting_period_iff (c : TrustingPeriodContext) (now : Time)
    (hno : c.trusted_state_timestamp.nanos + c.trusting_period.as_nanos ≤
      MAX_UNIX_TIMESTAMP_NANOS) :
    c.validate now = .error (.outOfTrustingPeriod now
        ⟨c.trusted_state_timestamp.nanos + c.trusting_period.as_nanos⟩) ↔
      c.trusted_state_timestamp.nanos + c.trusting_period.as_nanos ≤ now.nanos := by
  unfold TrustingPeriodContext.validate
  rw [ensure_within_trust_period_eq now _ _ hno]
  by_cases hlt : now.nanos <
      c.trusted_state_timestamp.nanos + c.trusting_period.as_nanos
  · rw [if_pos hlt]
    apply iff_of_false
    · intro heq
      cases hsec : TrustingPeriodContext.ensure_header_from_past now
          c.untrusted_header_timestamp c.clock_drift with
      | error e =>
        rw [hsec] at heq
        simp only [Except.error.injEq] at heq
        rw [heq] at hsec
        exact ensure_header_from_past_error_not_ootp now
          c.untrusted_header_timestamp c.clock_drift now
          ⟨c.trusted_state_timestamp.nanos + c.trusting_period.as_nanos⟩ hsec
      | ok v =>
        rw [hsec] at heq
        simp at heq
    · omega
  · rw [if_neg hlt]
    apply iff_of_true
    · rfl
    · omega

/-- Witness for C2: `T = 100ns`, `P = 50ns`, `current = 150ns = T + P`
fails with `OutOfTrustingPeriod`. -/
theorem validate_out_of_trusting_period_iff_witness :
    TrustingPeriodContext.validate ⟨⟨0, 50⟩, ⟨0, 0⟩, ⟨0⟩, ⟨100⟩⟩ ⟨150⟩ =
      .error (.outOfTrustingPeriod ⟨150⟩ ⟨150⟩) :=
  (validate_out_of_trusting_period_iff ⟨⟨0, 50⟩, ⟨0, 0⟩, ⟨0⟩, ⟨100⟩⟩ ⟨150⟩
    (by decide)).mpr (by decide)

/-- C3: when the within-trust-period check passes and
`current_timestamp + clock_drift` does not overflow,
`validate(current_timestamp)` fails with
`HeaderFromFuture(current_timestamp, header_timestamp)` if and only if
`current_timestamp + clock_drift <= untrusted_header_timestamp`. -/
theorem validate_header_from_future_iff (c : TrustingPeriodContext) (now : Time)
    (hfirst : TrustingPeriodContext.ensure_within_trust_period now
      c.trusted_state_timestamp c.trusting_period = .ok ())
    (hno : now.nanos + c.clock_drift.as_nanos ≤ MAX_UNIX_TIMESTAMP_NANOS) :
    c.validate now = .error (.headerFromFuture now c.untrusted_header_timestamp) ↔
      now.nanos + c.clock_drift.as_nanos ≤ c.untrusted_header_timestamp.nanos := by
  unfold TrustingPeriodContext.validate
  rw [hfirst, ensure_header_from_past_eq now _ _ hno]
  by_cases hlt : c.untrusted_header_timestamp.nanos <
      now.nanos + c.clock_drift.as_nanos
  · rw [if_pos hlt]
    apply iff_of_false
    · simp
    · omega
  · rw [if_neg hlt]
    apply iff_of_true
    · rfl
    · omega

/-- Witness for C3: `current = 100ns`, `drift = 10ns`,
`header = 110ns = current + drift` fails with `HeaderFromFuture`. -/
theorem validate_header_from_future_iff_witness :
    TrustingPeriodContext.validate ⟨⟨1, 0⟩, ⟨0, 10⟩, ⟨110⟩, ⟨100⟩⟩ ⟨100⟩ =
      .error (.headerFromFuture ⟨100⟩ ⟨110⟩) :=
  (validate_header_from_future_iff ⟨⟨1, 0⟩, ⟨0, 10⟩, ⟨110⟩, ⟨100⟩⟩ ⟨100⟩
    (by rfl) (by decide)).mpr (by decide)

/-- The header field of a successfully decoded outer tuple always has
exactly 32 bytes (it is read as `FixedBytes(32)`). -/
theorem decode_ok_header_length (bz : List Nat) (c : EthABICommitmentContext)
    (h : EthABICommitmentContext.decode bz = .ok c) : c.header.length = 32 := by
  unfold EthABICommitmentContext.decode at h
  split at h
  · cases h
  · split at h
    · cases h
    · split at h
      · cases h
      · split at h
        · cases h
        · split at h
          · cases h
          · rename_i x4 tupleOff heq4 x3 hdr hread x2 len1 heq2 x1 len0 heq1 x0 body heq0
            simp only [Except.ok.injEq] at h
            rw [← h]
            exact readBytes_ok_length bz tupleOff 32 hdr hread

/-- C4: decoding bytes whose outer tuple parses but whose header
carries a discriminant other than 0 and 1 fails with the unknown-type
(invalid commitment context header) error; it never returns `Empty` or
any other default. -/
theorem unknown_discriminant_rejected (bz hdr body : List Nat)
    (hdec : EthABICommitmentContext.decode bz = .ok ⟨hdr, body⟩)
    (h0 : beBytesToNat (hdr.take 2) ≠ COMMITMENT_CONTEXT_TYPE_EMPTY)
    (h1 : beBytesToNat (hdr.take 2) ≠ COMMITMENT_CONTEXT_TYPE_WITHIN_TRUSTING_PERIOD) :
    CommitmentContext.ethabi_decode bz =
      .err (.invalidCommitmentContextHeader
        ("unknown commitment context type: " ++ toString (beBytesToNat (hdr.take 2)))) := by
  have hlen : hdr.length = 32 := decode_ok_header_length bz ⟨hdr, body⟩ hdec
  have hparse : CommitmentContext.parse_context_type_from_header hdr =
      .ok (beBytesToNat (hdr.take 2)) := by
    unfold CommitmentContext.parse_context_type_from_header
    rw [if_neg (by simp [hlen, COMMITMENT_CONTEXT_HEADER_SIZE])]
  unfold CommitmentContext.ethabi_decode
  rw [hdec]
  simp only [hparse]
  rw [if_neg h0, if_neg h1]

/-- Witness for C4: a well-formed outer tuple whose header carries
discriminant 2 is rejected with the unknown-type error. -/
theorem unknown_discriminant_rejected_witness :
    CommitmentContext.ethabi_decode
      (EthABICommitmentContext.encode ⟨natToBeBytes 2 2 ++ List.replicate 30 0, []⟩) =
      .err (.invalidCommitmentContextHeader ("unknown commitment context type: " ++
        toString (beBytesToNat ((natToBeBytes 2 2 ++ List.replicate 30 0).take 2)))) :=
  unknown_discriminant_rejected _ (natToBeBytes 2 2 ++ List.replicate 30 0) []
    (ethabi_commitment_context_decode_encode _ _ (by rfl) (by rfl) (by norm_num))
    (by decide) (by decide)

/-- C5 evaluation: decoding a well-formed outer tuple declaring the
`Empty` discriminant but carrying a non-empty body hits
`assert!(context_bytes.is_empty())` and aborts (modelled `panicked`)
rather than returning a decode error. -/
theorem empty_nonempty_body_panics :
    CommitmentContext.ethabi_decode
      (EthABICommitmentContext.encode ⟨CommitmentContext.Empty.header, [1]⟩) =
      .panicked "assertion failed: context_bytes.is_empty()" := by
  decide

/-- C6: each of the two timestamp additions in `validate` surfaces an
explicit arithmetic-overflow error when its sum leaves the representable
range, and that error is a different variant from the two policy
errors. -/
theorem validate_overflow_distinct (c : TrustingPeriodContext) (now : Time)
    (h : MAX_UNIX_TIMESTAMP_NANOS <
        c.trusted_state_timestamp.nanos + c.trusting_period.as_nanos ∨
      (now.nanos < c.trusted_state_timestamp.nanos + c.trusting_period.as_nanos ∧
        c.trusted_state_timestamp.nanos + c.trusting_period.as_nanos ≤
          MAX_UNIX_TIMESTAMP_NANOS ∧
        MAX_UNIX_TIMESTAMP_NANOS < now.nanos + c.clock_drift.as_nanos)) :
    c.validate now = .error .timeOverflow ∧
      Error.isOutOfTrustingPeriod .timeOverflow = false ∧
      Error.isHeaderFromFuture .timeOverflow = false := by
  refine ⟨?_, rfl, rfl⟩
  unfold TrustingPeriodContext.validate
  rcases h with h1 | ⟨h2a, h2b, h2c⟩
  · unfold TrustingPeriodContext.ensure_within_trust_period Time.add
    rw [if_neg (by omega)]
  · rw [ensure_within_trust_period_eq now _ _ h2b, if_pos h2a]
    unfold TrustingPeriodContext.ensure_header_from_past Time.add
    rw [if_neg (by omega)]

/-- Witness for C6: a trusted-state timestamp at the maximal
representable value plus a one-second trusting period overflows. -/
theorem validate_overflow_distinct_witness :
    TrustingPeriodContext.validate
        ⟨⟨1, 0⟩, ⟨0, 0⟩, ⟨0⟩, ⟨MAX_UNIX_TIMESTAMP_NANOS⟩⟩ ⟨0⟩ =
        .error .timeOverflow ∧
      Error.isOutOfTrustingPeriod .timeOverflow = false ∧
      Error.isHeaderFromFuture .timeOverflow = false :=
  validate_overflow_distinct ⟨⟨1, 0⟩, ⟨0, 0⟩, ⟨0⟩, ⟨MAX_UNIX_TIMESTAMP_NANOS⟩⟩ ⟨0⟩
    (Or.inl (by decide))

/-- C7: `header()` returns exactly 32 bytes whose bytes 0-1 are the
big-endian 16-bit discriminant (0 for `Empty`, 1 for `TrustingPeriod`,
regardless of inner field values) and whose bytes 2-31 are all zero;
`parse_context_type_from_header` recovers the discriminant from any
32-byte header and rejects any other length with a length-mismatch
error. -/
theorem header_layout_and_parse (c : CommitmentContext) (hb : List Nat) :
    c.header.length = 32 ∧
    c.header.take 2 = natToBeBytes 2 c.contextType ∧
    c.header.drop 2 = List.replicate 30 0 ∧
    beBytesToNat (c.header.take 2) = c.contextType ∧
    CommitmentContext.parse_context_type_from_header hb =
      (if hb.length = 32 then .ok (beBytesToNat (hb.take 2))
       else .error (.invalidCommitmentContextHeader
         ("invalid commitment context header length: expected=32 actual=" ++
           toString hb.length))) := by
  refine ⟨?_, ?_, ?_, ?_, ?_⟩
  · cases c <;> rfl
  · cases c <;> rfl
  · cases c <;> rfl
  · cases c <;> rfl
  · unfold CommitmentContext.parse_context_type_from_header
    by_cases h : hb.length = 32
    · rw [if_neg (by simp [h, COMMITMENT_CONTEXT_HEADER_SIZE]), if_pos h]
    · rw [if_pos (by simp [h, COMMITMENT_CONTEXT_HEADER_SIZE]), if_neg h]

/-- C8: the `TrustingPeriodContext` body encodes as two fixed 32-byte
words — `untrusted_header_timestamp` at bytes 0-15,
`trusted_state_timestamp` at bytes 16-31, `trusting_period` at bytes
32-47, `clock_drift` at bytes 48-63, each big-endian 128-bit
nanoseconds — and the decoder reads exactly these positions back. -/
theorem trusting_period_body_layout (c : TrustingPeriodContext) (h : c.valid) :
    c.ethabi_encode.length = 64 ∧
    c.ethabi_encode.take 16 = natToBeBytes 16 c.untrusted_header_timestamp.nanos ∧
    (c.ethabi_encode.drop 16).take 16 =
      natToBeBytes 16 c.trusted_state_timestamp.nanos ∧
    (c.ethabi_encode.drop 32).take 16 = natToBeBytes 16 c.trusting_period.as_nanos ∧
    (c.ethabi_encode.drop 48).take 16 = natToBeBytes 16 c.clock_drift.as_nanos ∧
    TrustingPeriodContext.ethabi_decode c.ethabi_encode = .ok c := by
  have lenU : (natToBeBytes 16 c.untrusted_header_timestamp.nanos).length = 16 :=
    natToBeBytes_length 16 _
  have lenT : (natToBeBytes 16 c.trusted_state_timestamp.nanos).length = 16 :=
    natToBeBytes_length 16 _
  have lenP : (natToBeBytes 16 c.trusting_period.as_nanos).length = 16 :=
    natToBeBytes_length 16 _
  have lenD : (natToBeBytes 16 c.clock_drift.as_nanos).length = 16 :=
    natToBeBytes_length 16 _
  have henc : c.ethabi_encode =
      natToBeBytes 16 c.untrusted_header_timestamp.nanos ++
        (natToBeBytes 16 c.trusted_state_timestamp.nanos ++
          (natToBeBytes 16 c.trusting_period.as_nanos ++
            natToBeBytes 16 c.clock_drift.as_nanos)) := by
    unfold TrustingPeriodContext.ethabi_encode EthABITrustingPeriodContext.encode
    rw [rightPad32_of_mod _ (by simp [natToBeBytes_length]),
        rightPad32_of_mod _ (by simp [natToBeBytes_length])]
    simp [List.append_assoc]
  refine ⟨?_, ?_, ?_, ?_, ?_, trusting_period_context_roundtrip c h⟩
  · rw [henc]
    simp [natToBeBytes_length]
  · rw [henc, List.take_left' lenU]
  · rw [henc, List.drop_left' lenU, List.take_left' lenT]
  · have h32 : (natToBeBytes 16 c.untrusted_header_timestamp.nanos ++
        natToBeBytes 16 c.trusted_state_timestamp.nanos).length = 32 := by
      simp [natToBeBytes_length]
    rw [henc, ← List.append_assoc, List.drop_left' h32, List.take_left' lenP]
  · have h48 : (natToBeBytes 16 c.untrusted_header_timestamp.nanos ++
        (natToBeBytes 16 c.trusted_state_timestamp.nanos ++
          natToBeBytes 16 c.trusting_period.as_nanos)).length = 48 := by
      simp [natToBeBytes_length]
    rw [henc, show natToBeBytes 16 c.untrusted_header_timestamp.nanos ++
        (natToBeBytes 16 c.trusted_state_timestamp.nanos ++
          (natToBeBytes 16 c.trusting_period.as_nanos ++
            natToBeBytes 16 c.clock_drift.as_nanos)) =
        (natToBeBytes 16 c.untrusted_header_timestamp.nanos ++
          (natToBeBytes 16 c.trusted_state_timestamp.nanos ++
            natToBeBytes 16 c.trusting_period.as_nanos)) ++
          natToBeBytes 16 c.clock_drift.as_nanos from by simp [List.append_assoc],
      List.drop_left' h48]
    exact List.take_of_length_le (by rw [lenD])

/-- Witness for C8 at a concrete in-range context. -/
theorem trusting_period_body_layout_witness :
    TrustingPeriodContext.ethabi_decode
      (TrustingPeriodContext.ethabi_encode ⟨⟨2, 5⟩, ⟨0, 7⟩, ⟨300⟩, ⟨200⟩⟩) =
      .ok ⟨⟨2, 5⟩, ⟨0, 7⟩, ⟨300⟩, ⟨200⟩⟩ :=
  (trusting_period_body_layout ⟨⟨2, 5⟩, ⟨0, 7⟩, ⟨300⟩, ⟨200⟩⟩ (by decide)).2.2.2.2.2

/-- C9: `with_header` sets `latest_height` to the maximum of the
current `latest_height` and the header height, so `latest_height` never
decreases across an update. -/
theorem with_header_latest_height_max (s : ClientState) (h : Height) :
    ((s.with_header h).latest_height = s.latest_height ∨
      (s.with_header h).latest_height = h) ∧
    Height.le s.latest_height (s.with_header h).latest_height ∧
    Height.le h (s.with_header h).latest_height := by
  by_cases hlt : Height.lt s.latest_height h
  · have hres : (s.with_header h).latest_height = h := by
      unfold ClientState.with_header
      rw [if_pos hlt]
    rw [hres]
    unfold Height.lt at hlt
    refine ⟨Or.inr rfl, ?_, ?_⟩
    · unfold Height.le
      omega
    · unfold Height.le
      omega
  · have hres : (s.with_header h).latest_height = s.latest_height := by
      unfold ClientState.with_header
      rw [if_neg hlt]
    rw [hres]
    unfold Height.lt at hlt
    refine ⟨Or.inl rfl, ?_, ?_⟩
    · unfold Height.le
      omega
    · unfold Height.le
      omega

/-- C10: when both temporal conditions are violated simultaneously (and
neither addition overflows), `validate` reports `OutOfTrustingPeriod` —
the trust-period check runs first, and `HeaderFromFuture` is a
different error variant. -/
theorem validate_reports_trusting_period_first (c : TrustingPeriodContext) (now : Time)
    (hno1 : c.trusted_state_timestamp.nanos + c.trusting_period.as_nanos ≤
      MAX_UNIX_TIMESTAMP_NANOS)
    (hno2 : now.nanos + c.clock_drift.as_nanos ≤ MAX_UNIX_TIMESTAMP_NANOS)
    (hv1 : c.trusted_state_timestamp.nanos + c.trusting_period.as_nanos ≤ now.nanos)
    (hv2 : now.nanos + c.clock_drift.as_nanos ≤ c.untrusted_header_timestamp.nanos) :
    c.validate now = .error (.outOfTrustingPeriod now
        ⟨c.trusted_state_timestamp.nanos + c.trusting_period.as_nanos⟩) ∧
      Error.isHeaderFromFuture (.outOfTrustingPeriod now
        ⟨c.trusted_state_timestamp.nanos + c.trusting_period.as_nanos⟩) = false := by
  refine ⟨?_, rfl⟩
  exact (validate_out_of_trusting_period_iff c now hno1).mpr hv1

/-- Witness for C10: both checks violated; the result is
`OutOfTrustingPeriod`, not `HeaderFromFuture`. -/
theorem validate_reports_trusting_period_first_witness :
    TrustingPeriodContext.validate ⟨⟨0, 50⟩, ⟨0, 10⟩, ⟨300⟩, ⟨100⟩⟩ ⟨200⟩ =
        .error (.outOfTrustingPeriod ⟨200⟩ ⟨150⟩) ∧
      Error.isHeaderFromFuture (.outOfTrustingPeriod ⟨200⟩ ⟨150⟩) = false :=
  validate_reports_trusting_period_first ⟨⟨0, 50⟩, ⟨0, 10⟩, ⟨300⟩, ⟨100⟩⟩ ⟨200⟩
    (by decide) (by decide) (by decide) (by decide)

end LCP
